import Mathlib

/-!
Verification of the Spoolman TigerTag/NFC integration.

Bytes are modelled as `Nat` (a well-formed buffer holds values `< 256`),
buffers as `List Nat`, strings as `List Char`, and JS UTF-16 code units as
`Nat`.  The 4-byte IEEE-754 diameter field is modelled by its 32-bit
big-endian bit pattern, so the codec round trip is stated at the bit level.
-/

namespace Spoolman

/-! ## Byte-level helpers (big-endian fixed-width integers) -/

/-- Big-endian 2-byte encoding of a 16-bit value. -/
def be2 (n : Nat) : List Nat := [n / 256 % 256, n % 256]

/-- Big-endian 3-byte encoding of a 24-bit value (raw RGB colour). -/
def be3 (n : Nat) : List Nat := [n / 65536 % 256, n / 256 % 256, n % 256]

/-- Big-endian 4-byte encoding of a 32-bit value. -/
def be4 (n : Nat) : List Nat :=
  [n / 16777216 % 256, n / 65536 % 256, n / 256 % 256, n % 256]

/-- Interpret a byte list as a big-endian unsigned integer. -/
def bytesToNat (l : List Nat) : Nat := l.foldl (fun a b => a * 256 + b) 0

/-- The sub-buffer of length `len` starting at offset `off`. -/
def readSlice (buf : List Nat) (off len : Nat) : List Nat := (buf.drop off).take len

/-- Read a big-endian unsigned integer of `len` bytes at offset `off`. -/
def readBE (buf : List Nat) (off len : Nat) : Nat := bytesToNat (readSlice buf off len)

/-! ## Tag codec

Modelled from the spec: the binary codec lives in `spoolman/tigertag_codec.py`,
which is not part of the examined sources; the layout below follows the spec's
Section 4.1 field list (big-endian, fixed offsets, 144 bytes total).  The spec
leaves the magic constant and checksum algorithm open; we fix a 2-byte magic
marker and a 16-bit byte-sum checksum, both consistent with the spec's words. -/

/-- The decoded semantic content of a tag.  Field names follow the
`TigerTagData` interface of `client/src/utils/nfc.ts`; `color_hex` is the
24-bit RGB value, `diameter_mm` the IEEE-754 binary32 bit pattern, and
`user_message` a list of single-byte character codes. -/
structure TigerTagData where
  id_tigertag : Nat
  id_product : Nat
  id_material : Nat
  id_diameter : Nat
  id_brand : Nat
  color_hex : Nat
  weight : Nat
  nozzle_temp : Nat
  bed_temp : Nat
  drying_temp : Nat
  drying_duration : Nat
  user_message : List Nat
  diameter_mm : Nat
  deriving DecidableEq, Repr

/-- The fixed magic/version marker occupying the first two bytes. -/
def ttMagic : Nat := 21588

/-- The 28-byte user-message field: truncated to 28 bytes and null-padded. -/
def msgField (m : List Nat) : List Nat := m.take 28 ++ List.replicate (28 - m.length) 0

/-- The fixed-width fields preceding the user message (37 bytes). -/
def encodeHead (d : TigerTagData) : List Nat :=
  be2 ttMagic ++ be4 d.id_tigertag ++ be4 d.id_product ++ be4 d.id_material ++
  be4 d.id_diameter ++ be2 d.id_brand ++ be3 d.color_hex ++ be2 d.weight ++
  be2 d.nozzle_temp ++ be2 d.bed_temp ++ be2 d.drying_temp ++ be2 d.drying_duration ++
  be4 d.diameter_mm

/-- The 65 checksummed bytes: fixed-width fields then the message field. -/
def encodeBody (d : TigerTagData) : List Nat := encodeHead d ++ msgField d.user_message

/-- 16-bit checksum over the preceding bytes (byte sum mod 2^16). -/
def checksum (body : List Nat) : Nat := body.sum % 65536

/-- Encode a descriptor into the 144-byte tag buffer:
body, 2-byte checksum, zero padding. -/
def encode (d : TigerTagData) : List Nat :=
  encodeBody d ++ (be2 (checksum (encodeBody d)) ++ List.replicate 77 0)

/-- The decode error taxonomy: wrong buffer size, magic mismatch, checksum
mismatch, and out-of-range field values are reported distinctly. -/
inductive DecodeError where
  | structural
  | badFormat
  | corruptData
  | semanticError
  deriving DecidableEq, Repr

/-- Range invariant on a descriptor: every numeric field fits its field
width and the user message consists of nonzero single-byte characters. -/
def ValidTag (d : TigerTagData) : Bool :=
  decide (d.id_tigertag < 4294967296) && decide (d.id_product < 4294967296) &&
  decide (d.id_material < 4294967296) && decide (d.id_diameter < 4294967296) &&
  decide (d.id_brand < 65536) && decide (d.color_hex < 16777216) &&
  decide (d.weight < 65536) && decide (d.nozzle_temp < 65536) &&
  decide (d.bed_temp < 65536) && decide (d.drying_temp < 65536) &&
  decide (d.drying_duration < 65536) && decide (d.diameter_mm < 4294967296) &&
  d.user_message.all (fun b => decide (0 < b) && decide (b < 256))

/-- Decode a raw tag buffer: structural check (length), format check (magic),
integrity check (checksum), field parsing, semantic range check. -/
def decode (buf : List Nat) : Except DecodeError TigerTagData :=
  if buf.length = 144 then
    if readBE buf 0 2 = ttMagic then
      if readBE buf 65 2 = checksum (readSlice buf 0 65) then
        let d : TigerTagData :=
          { id_tigertag := readBE buf 2 4
            id_product := readBE buf 6 4
            id_material := readBE buf 10 4
            id_diameter := readBE buf 14 4
            id_brand := readBE buf 18 2
            color_hex := readBE buf 20 3
            weight := readBE buf 23 2
            nozzle_temp := readBE buf 25 2
            bed_temp := readBE buf 27 2
            drying_temp := readBE buf 29 2
            drying_duration := readBE buf 31 2
            diameter_mm := readBE buf 33 4
            user_message := (readSlice buf 37 28).takeWhile (fun b => b != 0) }
        if ValidTag d then Except.ok d else Except.error DecodeError.semanticError
      else Except.error DecodeError.corruptData
    else Except.error DecodeError.badFormat
  else Except.error DecodeError.structural

/-! ## Decimal strings

JS template literals render a spool id with the decimal digits of the number;
`numStr` embeds that rendering and `parseVal` the numeric reading of a
captured digit group. -/

/-- Decimal rendering of a natural number, most significant digit first
(the JS `String(n)` / template-literal rendering of an integer). -/
def numStr (n : Nat) : List Char :=
  if n = 0 then ['0'] else ((Nat.digits 10 n).map Nat.digitChar).reverse

/-- Numeric value of a decimal digit character. -/
def digitVal (c : Char) : Nat := c.toNat - 48

/-- Numeric value of a most-significant-first digit string. -/
def parseVal (l : List Char) : Nat := l.foldl (fun a c => a * 10 + digitVal c) 0

/-! ## Browser NFC path (`client/src/components/nfcScannerModal.tsx`) -/

/-- A decoded NDEF record as seen by `handleBrowserScan`: its record type
and the text decoded from its data payload. -/
structure NdefRecordModel where
  recordType : List Char
  text : List Char
  deriving DecidableEq, Repr

/-- Outcome of a browser scan: navigation to a spool page, or the
"no match" error message with no navigation. -/
inductive ScanOutcome where
  | navigate (spoolId : Nat)
  | noMatch
  deriving DecidableEq, Repr

/-- Leftmost-match capture of the JS regexes used by `handleBrowserScan`:
find the first position where the literal `pat` occurs followed by at least
one digit, and return the value of the maximal digit run after it
(the semantics of `text.match(/<pat>(\d+)/)`). -/
def findCapture (pat : List Char) : List Char → Option Nat
  | [] => none
  | c :: rest =>
    if pat.isPrefixOf (c :: rest) then
      let ds := ((c :: rest).drop pat.length).takeWhile Char.isDigit
      if ds.isEmpty then findCapture pat rest else some (parseVal ds)
    else findCapture pat rest

/-- The guard of `findCapture` at one position: the literal `pat` occurs
here and at least one digit follows it. -/
def matchesAt (pat s : List Char) : Bool :=
  pat.isPrefixOf s && !((s.drop pat.length).takeWhile Char.isDigit).isEmpty

/-- The `web+spoolman:s-(\d+)` check of `handleBrowserScan`. -/
def spoolmanMatch (text : List Char) : Option Nat :=
  findCapture "web+spoolman:s-".data text

/-- The `\/spool\/show\/(\d+)` check of `handleBrowserScan`. -/
def urlMatch (text : List Char) : Option Nat :=
  findCapture "/spool/show/".data text

/-- Per-record logic of `handleBrowserScan`: only `url` and `text` records
are considered; the spoolman scheme is tried before the URL format. -/
def scanRecord (r : NdefRecordModel) : Option Nat :=
  if r.recordType = "url".data ∨ r.recordType = "text".data then
    match spoolmanMatch r.text with
    | some i => some i
    | none => urlMatch r.text
  else none

/-- The record loop of `handleBrowserScan`: navigate on the first record
that yields a spool id, otherwise report "no match". -/
def handleBrowserScan : List NdefRecordModel → ScanOutcome
  | [] => ScanOutcome.noMatch
  | r :: rs =>
    match scanRecord r with
    | some i => ScanOutcome.navigate i
    | none => handleBrowserScan rs

/-- The URI text written by `handleBrowserWrite`. -/
def writeUriText (spoolId : Nat) : List Char := "web+spoolman:s-".data ++ numStr spoolId

/-- The NDEF message written by `handleBrowserWrite`: a single `url` record
holding the spoolman URI for the spool id. -/
def handleBrowserWriteRecords (spoolId : Nat) : List NdefRecordModel :=
  [⟨"url".data, writeUriText spoolId⟩]

/-! ## Write modal (`nfcWriteModal.tsx`) -/

/-- The body of a server write request (`NfcWriteRequest` in
`client/src/utils/nfc.ts`); the message is a list of UTF-16 code units. -/
structure NfcWriteRequest where
  spool_id : Nat
  user_message : List Nat
  deriving DecidableEq, Repr

/-- Events affecting the `userMessage` state of `NfcWriteModal`: an input
change (the handler stores `value.slice(0, 28)`) and the modal cancel
(which resets the field to the empty string). -/
inductive WriteModalEvent where
  | setMessage (typed : List Nat)
  | cancelModal
  deriving DecidableEq, Repr

/-- State transition of the `userMessage` field. -/
def applyWriteEvent (_userMessage : List Nat) : WriteModalEvent → List Nat
  | WriteModalEvent.setMessage typed => typed.take 28
  | WriteModalEvent.cancelModal => []

/-- The `userMessage` state after a sequence of events, starting empty. -/
def runWriteEvents (evs : List WriteModalEvent) : List Nat :=
  evs.foldl applyWriteEvent []

/-- `handleServerWrite`: submit the current `userMessage` with the spool id. -/
def handleServerWrite (spoolId : Nat) (userMessage : List Nat) : NfcWriteRequest :=
  ⟨spoolId, userMessage⟩

/-! ## Status query and scanner entry point -/

/-- The wire shape of `GET /nfc/status` (`NfcStatusResponse` in
`client/src/utils/nfc.ts`): an enabled flag and a status string. -/
structure NfcStatusResponse where
  enabled : Bool
  status : List Char
  deriving DecidableEq, Repr

/-- The `serverEnabled` computation of `nfcScannerModal.tsx`:
`nfcStatus.data?.enabled === true && nfcStatus.data?.status === "connected"`. -/
def serverEnabled (respData : Option NfcStatusResponse) : Bool :=
  match respData with
  | some r => r.enabled && decide (r.status = "connected".data)
  | none => false

/-- What the `NfcScannerModal` component renders: nothing, or the float
button and modal with the enablement of the server and browser mode
options (an option is offered when its `disabled` flag is off). -/
inductive RenderResult where
  | hidden
  | shown (serverOption : Bool) (browserOption : Bool)
  deriving DecidableEq, Repr

/-- The render decision of `NfcScannerModal`: `null` when neither server
NFC nor Web NFC is available, otherwise the modal whose server option is
enabled iff `serverEnabled` and browser option iff Web NFC support. -/
def renderScanner (respData : Option NfcStatusResponse) (webNfcAvailable : Bool) : RenderResult :=
  if !serverEnabled respData && !webNfcAvailable then RenderResult.hidden
  else RenderResult.shown (serverEnabled respData) webNfcAvailable

/-! ## Device abstraction and NFC read endpoint

Modelled from the spec: `spoolman/nfc_service.py` and `spoolman/api/v1/nfc.py`
are not part of the examined sources; the device status values, the error
taxonomy and the read-response assembly below follow the spec's Sections 4.2,
6 and 7. -/

/-- The device lifecycle states of the spec's Section 4.2. -/
inductive DeviceStatus where
  | disabled
  | disconnected
  | connecting
  | connected
  | error
  deriving DecidableEq, Repr

/-- Wire string for each device status. -/
def statusText : DeviceStatus → List Char
  | DeviceStatus.disabled => "disabled".data
  | DeviceStatus.disconnected => "disconnected".data
  | DeviceStatus.connecting => "connecting".data
  | DeviceStatus.connected => "connected".data
  | DeviceStatus.error => "error".data

/-- Modelled from the spec: the NFC service's observable state (enabled
flag and current device status). -/
structure NfcServiceState where
  enabled : Bool
  status : DeviceStatus
  deriving DecidableEq, Repr

/-- Modelled from the spec: the status query `GET /nfc/status` — a total
function returning the response together with the (unchanged) service
state, which makes its freedom from side effects a provable statement. -/
def statusQuery (s : NfcServiceState) : NfcStatusResponse × NfcServiceState :=
  (⟨s.enabled, statusText s.status⟩, s)

/-- The device error taxonomy of the spec's Section 4.2/7. -/
inductive DeviceError where
  | notConnected
  | timeout
  | ioError
  | busy
  | invalidSize
  deriving DecidableEq, Repr

/-- The wire shape of `POST /nfc/read` (`NfcReadResponse` in
`client/src/utils/nfc.ts`); `raw_data_b64` is modelled as the raw bytes
rather than their base64 rendering. -/
structure NfcReadResponse where
  success : Bool
  tag_data : Option TigerTagData
  spool_id : Option Nat
  raw_data_b64 : Option (List Nat)
  message : List Char
  deriving DecidableEq, Repr

/-- Human-readable message for a device failure. -/
def deviceErrorMessage : DeviceError → List Char
  | DeviceError.notConnected => "NFC reader not connected".data
  | DeviceError.timeout => "No tag presented before the timeout".data
  | DeviceError.ioError => "Communication fault with the NFC reader".data
  | DeviceError.busy => "Another NFC operation is in progress".data
  | DeviceError.invalidSize => "Buffer is not 144 bytes".data

/-- Human-readable message for a decode failure, distinguishing
"not a recognized tag" from "tag data corrupted". -/
def decodeErrorMessage : DecodeError → List Char
  | DecodeError.structural => "Tag data has the wrong size".data
  | DecodeError.badFormat => "Not a recognized TigerTag".data
  | DecodeError.corruptData => "Tag data is corrupted".data
  | DecodeError.semanticError => "Tag data holds out-of-range values".data

/-- Modelled from the spec: the read endpoint — read a raw buffer from the
device, decode it, and try to match a spool; every `DeviceError` or
`DecodeError` becomes `success = false` with a populated message, and a
successful decode always carries `tag_data` even without a spool match. -/
def nfcReadOp (deviceResult : Except DeviceError (List Nat))
    (matchSpool : TigerTagData → Option Nat) : NfcReadResponse :=
  match deviceResult with
  | Except.error e => ⟨false, none, none, none, deviceErrorMessage e⟩
  | Except.ok raw =>
    match decode raw with
    | Except.error e => ⟨false, none, none, some raw, decodeErrorMessage e⟩
    | Except.ok d =>
      match matchSpool d with
      | some sid => ⟨true, some d, some sid, some raw, "Tag matched".data⟩
      | none => ⟨true, some d, none, some raw, "No matching spool found".data⟩

/-! ## Matcher forward path

Modelled from the spec: `spoolman/tigertag_lookup.py` is not part of the
examined sources; the forward contract below follows the spec's Section 4.3:
a vendor product-id mapping table first, then a best-effort score on the
tuple (material id, diameter-class id, brand id, color), picking the single
best candidate only when it is unique. -/

/-- The inventory fields consulted by the matcher's tuple scoring. -/
structure InventoryRecord where
  spool_id : Nat
  id_material : Nat
  id_diameter : Nat
  id_brand : Nat
  color_hex : Nat
  deriving DecidableEq, Repr

/-- Score of an inventory record against a descriptor: one point per
agreeing component of (material id, diameter-class id, brand id, color). -/
def matchScore (d : TigerTagData) (r : InventoryRecord) : Nat :=
  (if d.id_material = r.id_material then 1 else 0) +
  (if d.id_diameter = r.id_diameter then 1 else 0) +
  (if d.id_brand = r.id_brand then 1 else 0) +
  (if d.color_hex = r.color_hex then 1 else 0)

/-- Records that qualify at all (a strictly positive score). -/
def candidates (d : TigerTagData) (inv : List InventoryRecord) : List InventoryRecord :=
  inv.filter (fun r => 0 < matchScore d r)

/-- The best score among the qualifying records. -/
def bestScore (d : TigerTagData) (inv : List InventoryRecord) : Nat :=
  ((candidates d inv).map (matchScore d)).foldr max 0

/-- The qualifying records that tie for the best score. -/
def bestCandidates (d : TigerTagData) (inv : List InventoryRecord) : List InventoryRecord :=
  (candidates d inv).filter (fun r => matchScore d r = bestScore d inv)

/-- Modelled from the spec: the forward match — the product-id mapping
table wins outright; otherwise the single best-scoring record is chosen
only when exactly one candidate ties for the best score, and "no match"
is the ordinary `Option.none` result. -/
def matchSpool (mapping : List (Nat × Nat)) (d : TigerTagData)
    (inv : List InventoryRecord) : Option Nat :=
  match mapping.lookup d.id_product with
  | some sid => some sid
  | none =>
    match bestCandidates d inv with
    | [r] => some r.spool_id
    | _ => none

/-! ## Catalog merge

Modelled from the spec: the merge of `spoolman/api/v1/externaldb.py` and
`spoolman/tigertagdb.py` is not part of the examined sources; per the spec
and the repository's notes, remote (TigerTag) entries enter the merged view
with their id rewritten to `tigertag_<original-id>` while local entries keep
their own unmodified numeric id space. -/

/-- Origin discriminant of a merged catalog entry. -/
inductive CatalogSource where
  | localSource
  | remoteSource
  deriving DecidableEq, Repr

/-- A merged-view entry: its (namespaced) identifier and its source. -/
structure MergedEntry where
  id : List Char
  source : CatalogSource
  deriving DecidableEq, Repr

/-- A local catalog entry, identified by its own numeric id. -/
structure LocalCatalogEntry where
  rawId : Nat
  deriving DecidableEq, Repr

/-- A remote (TigerTag) catalog entry, identified by its numeric product id. -/
structure RemoteCatalogEntry where
  id_product : Nat
  deriving DecidableEq, Repr

/-- Identifier of a local entry in the merged view: unmodified. -/
def localMergedId (e : LocalCatalogEntry) : List Char := numStr e.rawId

/-- Identifier of a remote entry in the merged view: the fixed remote
source tag, an underscore, and the original id. -/
def remoteMergedId (e : RemoteCatalogEntry) : List Char :=
  "tigertag_".data ++ numStr e.id_product

/-- Modelled from the spec: the merged read-only view — all local entries
with unmodified ids, then all remote entries under the namespacing rule. -/
def mergedView (locals : List LocalCatalogEntry) (remotes : List RemoteCatalogEntry) :
    List MergedEntry :=
  locals.map (fun e => ⟨localMergedId e, CatalogSource.localSource⟩) ++
  remotes.map (fun e => ⟨remoteMergedId e, CatalogSource.remoteSource⟩)

/-! ## Concrete sample data used by the witnesses -/

/-- Sample descriptor of the spec's concrete scenario A: diameter-class 3,
colour FF6600, weight 1000, message "Batch 42". -/
def sampleTag : TigerTagData :=
  { id_tigertag := 1
    id_product := 123456
    id_material := 7
    id_diameter := 3
    id_brand := 42
    color_hex := 16737792
    weight := 1000
    nozzle_temp := 210
    bed_temp := 60
    drying_temp := 55
    drying_duration := 240
    user_message := [66, 97, 116, 99, 104, 32, 52, 50]
    diameter_mm := 1071644672 }

/-! ## Lemmas -/

theorem bytesToNat_be2 (n : Nat) (h : n < 65536) : bytesToNat (be2 n) = n := by
  simp only [bytesToNat, be2, List.foldl]
  omega

theorem bytesToNat_be3 (n : Nat) (h : n < 16777216) : bytesToNat (be3 n) = n := by
  simp only [bytesToNat, be3, List.foldl]
  omega

theorem bytesToNat_be4 (n : Nat) (h : n < 4294967296) : bytesToNat (be4 n) = n := by
  simp only [bytesToNat, be4, List.foldl]
  omega

theorem encodeHead_length (d : TigerTagData) : (encodeHead d).length = 37 := rfl

theorem msgField_length (m : List Nat) : (msgField m).length = 28 := by
  simp only [msgField, List.length_append, List.length_take, List.length_replicate]
  omega

theorem encodeBody_length (d : TigerTagData) : (encodeBody d).length = 65 := by
  simp [encodeBody, encodeHead_length, msgField_length]

theorem encode_length (d : TigerTagData) : (encode d).length = 144 := by
  simp [encode, encodeBody_length, be2]

theorem readSlice_encode_magic (d : TigerTagData) :
    readSlice (encode d) 0 2 = be2 ttMagic := rfl

theorem readSlice_encode_tid (d : TigerTagData) :
    readSlice (encode d) 2 4 = be4 d.id_tigertag := rfl

theorem readSlice_encode_pid (d : TigerTagData) :
    readSlice (encode d) 6 4 = be4 d.id_product := rfl

theorem readSlice_encode_mid (d : TigerTagData) :
    readSlice (encode d) 10 4 = be4 d.id_material := rfl

theorem readSlice_encode_did (d : TigerTagData) :
    readSlice (encode d) 14 4 = be4 d.id_diameter := rfl

theorem readSlice_encode_brand (d : TigerTagData) :
    readSlice (encode d) 18 2 = be2 d.id_brand := rfl

theorem readSlice_encode_color (d : TigerTagData) :
    readSlice (encode d) 20 3 = be3 d.color_hex := rfl

theorem readSlice_encode_weight (d : TigerTagData) :
    readSlice (encode d) 23 2 = be2 d.weight := rfl

theorem readSlice_encode_nozzle (d : TigerTagData) :
    readSlice (encode d) 25 2 = be2 d.nozzle_temp := rfl

theorem readSlice_encode_bed (d : TigerTagData) :
    readSlice (encode d) 27 2 = be2 d.bed_temp := rfl

theorem readSlice_encode_dryt (d : TigerTagData) :
    readSlice (encode d) 29 2 = be2 d.drying_temp := rfl

theorem readSlice_encode_dryd (d : TigerTagData) :
    readSlice (encode d) 31 2 = be2 d.drying_duration := rfl

theorem readSlice_encode_diam (d : TigerTagData) :
    readSlice (encode d) 33 4 = be4 d.diameter_mm := rfl

theorem readSlice_encode_msg (d : TigerTagData) :
    readSlice (encode d) 37 28 = msgField d.user_message := by
  have h : encode d = encodeHead d ++
      (msgField d.user_message ++ (be2 (checksum (encodeBody d)) ++ List.replicate 77 0)) := by
    simp [encode, encodeBody, List.append_assoc]
  rw [h, readSlice, List.drop_left' (by rw [encodeHead_length]),
    List.take_left' (msgField_length d.user_message)]

theorem readSlice_encode_body (d : TigerTagData) :
    readSlice (encode d) 0 65 = encodeBody d := by
  rw [encode, readSlice, List.drop_zero, List.take_left' (encodeBody_length d)]

theorem readSlice_encode_chk (d : TigerTagData) :
    readSlice (encode d) 65 2 = be2 (checksum (encodeBody d)) := by
  rw [encode, readSlice, List.drop_left' (encodeBody_length d)]
  rfl

theorem takeWhile_replicate_zero (k : Nat) :
    (List.replicate k 0).takeWhile (fun b : Nat => b != 0) = [] := by
  cases k with
  | zero => rfl
  | succ n => simp [List.replicate_succ, List.takeWhile_cons]

theorem takeWhile_msgField (m : List Nat) (h : ∀ b ∈ m, 0 < b) :
    (msgField m).takeWhile (fun b => b != 0) = m.take 28 := by
  have hpos : ∀ b ∈ m.take 28, (b != 0) = true := by
    intro b hb
    have := h b (List.take_subset 28 m hb)
    simp [Nat.ne_of_gt this]
  rw [msgField, List.takeWhile_append_of_pos hpos, takeWhile_replicate_zero, List.append_nil]

theorem ValidTag_truncate (d : TigerTagData) (h : ValidTag d = true) :
    ValidTag { d with user_message := d.user_message.take 28 } = true := by
  simp only [ValidTag, Bool.and_eq_true, decide_eq_true_eq, List.all_eq_true] at h ⊢
  exact ⟨h.1, fun b hb => h.2 b (List.take_subset 28 _ hb)⟩

theorem decode_encode (d : TigerTagData) (h : ValidTag d = true) :
    decode (encode d) = Except.ok { d with user_message := d.user_message.take 28 } := by
  have hb : checksum (encodeBody d) < 65536 := Nat.mod_lt _ (by norm_num)
  have hB := h
  simp only [ValidTag, Bool.and_eq_true, decide_eq_true_eq, List.all_eq_true] at hB
  obtain ⟨⟨⟨⟨⟨⟨⟨⟨⟨⟨⟨⟨h1, h2⟩, h3⟩, h4⟩, h5⟩, h6⟩, h7⟩, h8⟩, h9⟩, h10⟩, h11⟩, h12⟩, hmsg⟩ := hB
  have hmsg' : ∀ b ∈ d.user_message, 0 < b := fun b hbm => (hmsg b hbm).1
  have hmagic : readBE (encode d) 0 2 = ttMagic := by
    rw [readBE, readSlice_encode_magic, bytesToNat_be2 _ (by decide)]
  have hchk : readBE (encode d) 65 2 = checksum (readSlice (encode d) 0 65) := by
    rw [readBE, readSlice_encode_chk, bytesToNat_be2 _ hb, readSlice_encode_body]
  have e1 : readBE (encode d) 2 4 = d.id_tigertag := by
    rw [readBE, readSlice_encode_tid, bytesToNat_be4 _ h1]
  have e2 : readBE (encode d) 6 4 = d.id_product := by
    rw [readBE, readSlice_encode_pid, bytesToNat_be4 _ h2]
  have e3 : readBE (encode d) 10 4 = d.id_material := by
    rw [readBE, readSlice_encode_mid, bytesToNat_be4 _ h3]
  have e4 : readBE (encode d) 14 4 = d.id_diameter := by
    rw [readBE, readSlice_encode_did, bytesToNat_be4 _ h4]
  have e5 : readBE (encode d) 18 2 = d.id_brand := by
    rw [readBE, readSlice_encode_brand, bytesToNat_be2 _ h5]
  have e6 : readBE (encode d) 20 3 = d.color_hex := by
    rw [readBE, readSlice_encode_color, bytesToNat_be3 _ h6]
  have e7 : readBE (encode d) 23 2 = d.weight := by
    rw [readBE, readSlice_encode_weight, bytesToNat_be2 _ h7]
  have e8 : readBE (encode d) 25 2 = d.nozzle_temp := by
    rw [readBE, readSlice_encode_nozzle, bytesToNat_be2 _ h8]
  have e9 : readBE (encode d) 27 2 = d.bed_temp := by
    rw [readBE, readSlice_encode_bed, bytesToNat_be2 _ h9]
  have e10 : readBE (encode d) 29 2 = d.drying_temp := by
    rw [readBE, readSlice_encode_dryt, bytesToNat_be2 _ h10]
  have e11 : readBE (encode d) 31 2 = d.drying_duration := by
    rw [readBE, readSlice_encode_dryd, bytesToNat_be2 _ h11]
  have e12 : readBE (encode d) 33 4 = d.diameter_mm := by
    rw [readBE, readSlice_encode_diam, bytesToNat_be4 _ h12]
  have em : (readSlice (encode d) 37 28).takeWhile (fun b => b != 0) =
      d.user_message.take 28 := by
    rw [readSlice_encode_msg, takeWhile_msgField _ hmsg']
  rw [decode, if_pos (encode_length d), if_pos hmagic, if_pos hchk]
  simp only [e1, e2, e3, e4, e5, e6, e7, e8, e9, e10, e11, e12, em]
  rw [if_pos (ValidTag_truncate d h)]

theorem digitVal_digitChar (d : Nat) (h : d < 10) : digitVal (Nat.digitChar d) = d := by
  interval_cases d <;> decide

theorem isDigit_digitChar (d : Nat) (h : d < 10) : (Nat.digitChar d).isDigit = true := by
  interval_cases d <;> decide

theorem parseVal_append_digit (l : List Char) (c : Char) :
    parseVal (l ++ [c]) = parseVal l * 10 + digitVal c := by
  simp [parseVal, List.foldl_append]

theorem parseVal_rev_digits (ds : List Nat) (h : ∀ d ∈ ds, d < 10) :
    parseVal ((ds.map Nat.digitChar).reverse) = Nat.ofDigits 10 ds := by
  induction ds with
  | nil => rfl
  | cons d rest ih =>
    have hd : d < 10 := h d (List.mem_cons_self d rest)
    have hrest : ∀ x ∈ rest, x < 10 := fun x hx => h x (List.mem_cons_of_mem d hx)
    simp only [List.map_cons, List.reverse_cons, parseVal_append_digit, ih hrest,
      digitVal_digitChar d hd, Nat.ofDigits_cons]
    ring

theorem parseVal_numStr (n : Nat) : parseVal (numStr n) = n := by
  by_cases h : n = 0
  · subst h; decide
  · rw [numStr, if_neg h,
      parseVal_rev_digits _ (fun d hd => Nat.digits_lt_base (by norm_num) hd)]
    exact_mod_cast Nat.ofDigits_digits 10 n

theorem numStr_ne_nil (n : Nat) : numStr n ≠ [] := by
  by_cases h : n = 0
  · subst h; decide
  · rw [numStr, if_neg h]
    simp [Nat.digits_ne_nil_iff_ne_zero.mpr h]

theorem numStr_all_digits (n : Nat) : ∀ c ∈ numStr n, c.isDigit = true := by
  intro c hc
  by_cases h : n = 0
  · subst h; simp [numStr] at hc; subst hc; decide
  · rw [numStr, if_neg h, List.mem_reverse, List.mem_map] at hc
    obtain ⟨d, hd, rfl⟩ := hc
    exact isDigit_digitChar d (Nat.digits_lt_base (by norm_num) hd)

theorem numStr_head_digit (n : Nat) :
    ∃ c cs, numStr n = c :: cs ∧ c.isDigit = true := by
  obtain ⟨c, cs, hc⟩ := List.exists_cons_of_ne_nil (numStr_ne_nil n)
  exact ⟨c, cs, hc, numStr_all_digits n c (hc ▸ List.mem_cons_self c cs)⟩

theorem findCapture_exact (pat m : List Char) (c : Char) (hm : m ≠ [])
    (hdig : ∀ x ∈ m, x.isDigit = true) :
    findCapture (c :: pat) ((c :: pat) ++ m) = some (parseVal m) := by
  have hpre : (c :: pat).isPrefixOf ((c :: pat) ++ m) = true := by
    rw [List.isPrefixOf_iff_prefix]; exact List.prefix_append _ m
  have hdrop : ((c :: pat) ++ m).drop (c :: pat).length = m := List.drop_left _ m
  rw [List.cons_append, findCapture, ← List.cons_append, if_pos hpre, hdrop,
    List.takeWhile_eq_self_iff.mpr hdig, if_neg (by simpa [List.isEmpty_iff] using hm)]

theorem findCapture_skip (p0 : Char) (pt pre rest : List Char)
    (h : ∀ c ∈ pre, c ≠ p0) :
    findCapture (p0 :: pt) (pre ++ rest) = findCapture (p0 :: pt) rest := by
  induction pre with
  | nil => rfl
  | cons c pre' ih =>
    have hc : c ≠ p0 := h c (List.mem_cons_self c pre')
    have hpre : (p0 :: pt).isPrefixOf (c :: (pre' ++ rest)) = false := by
      simp only [List.isPrefixOf, Bool.and_eq_false_iff]
      exact Or.inl (by simpa [beq_iff_eq] using fun hpc => hc hpc.symm)
    rw [List.cons_append, findCapture, if_neg (by simp [hpre])]
    exact ih (fun x hx => h x (List.mem_cons_of_mem c hx))

theorem findCapture_append_pos (pat pre rest : List Char)
    (h : ∀ i, i < pre.length → matchesAt pat ((pre ++ rest).drop i) = false) :
    findCapture pat (pre ++ rest) = findCapture pat rest := by
  induction pre with
  | nil => rfl
  | cons c pre' ih =>
    have h0 : matchesAt pat (c :: (pre' ++ rest)) = false := by
      have := h 0 (by simp)
      simpa using this
    have hrec : ∀ i, i < pre'.length → matchesAt pat ((pre' ++ rest).drop i) = false := by
      intro i hi
      have := h (i + 1) (by simp; omega)
      simpa using this
    by_cases hp : pat.isPrefixOf (c :: (pre' ++ rest)) = true
    · have hd : (((c :: (pre' ++ rest)).drop pat.length).takeWhile Char.isDigit).isEmpty
          = true := by
        simpa [matchesAt, hp] using h0
      rw [List.cons_append, findCapture, if_pos hp, if_pos hd]
      exact ih hrec
    · rw [List.cons_append, findCapture, if_neg hp]
      exact ih hrec

theorem findCapture_at (pat m suf : List Char) (c : Char) (hm : m ≠ [])
    (hdig : ∀ x ∈ m, x.isDigit = true)
    (hsuf : ∀ x, suf.head? = some x → x.isDigit = false) :
    findCapture (c :: pat) ((c :: pat) ++ (m ++ suf)) = some (parseVal m) := by
  have hpre : (c :: pat).isPrefixOf ((c :: pat) ++ (m ++ suf)) = true := by
    rw [List.isPrefixOf_iff_prefix]; exact List.prefix_append _ _
  have hdrop : ((c :: pat) ++ (m ++ suf)).drop (c :: pat).length = m ++ suf :=
    List.drop_left _ _
  have htw : (m ++ suf).takeWhile Char.isDigit = m := by
    rw [List.takeWhile_append_of_pos hdig]
    cases suf with
    | nil => simp
    | cons x xs =>
      rw [List.takeWhile_cons_of_neg (by simp [hsuf x rfl]), List.append_nil]
  rw [List.cons_append, findCapture, ← List.cons_append, if_pos hpre, hdrop, htw,
    if_neg (by simpa [List.isEmpty_iff] using hm)]

/-! ## Claims -/

/-- C1: for every descriptor whose fields satisfy their range/length
invariants, decoding its encoding yields the descriptor back, the user
message compared after truncation to 28 bytes; `encode` and `decode` are
plain functions, hence deterministic and free of side effects. -/
theorem tc_C1_roundtrip (d : TigerTagData) (h : ValidTag d = true) :
    decode (encode d) = Except.ok { d with user_message := d.user_message.take 28 } :=
  decode_encode d h

set_option maxRecDepth 4000 in
theorem tc_C1_roundtrip_witness :
    ValidTag sampleTag = true ∧
    decode (encode sampleTag) =
      Except.ok { sampleTag with user_message := sampleTag.user_message.take 28 } :=
  ⟨by decide, tc_C1_roundtrip sampleTag (by decide)⟩

/-- C2: decoding any buffer whose length is not 144 yields the structural
error — a total, crash-free result carrying no partial descriptor — and
the structural error is distinct from the format and semantic errors. -/
theorem tc_C2_structural (buf : List Nat) (h : buf.length ≠ 144) :
    decode buf = Except.error DecodeError.structural ∧
    DecodeError.structural ≠ DecodeError.badFormat ∧
    DecodeError.structural ≠ DecodeError.corruptData ∧
    DecodeError.structural ≠ DecodeError.semanticError := by
  refine ⟨?_, by decide, by decide, by decide⟩
  rw [decode, if_neg h]

theorem tc_C2_structural_witness :
    (List.replicate 140 (0 : Nat)).length ≠ 144 ∧
    decode (List.replicate 140 (0 : Nat)) = Except.error DecodeError.structural :=
  ⟨by simp, (tc_C2_structural _ (by simp)).1⟩

/-- C3: the browser write path writes exactly one `url` NDEF record whose
text is `web+spoolman:s-<spool-id>`, and the browser read path resolves
that text back to the same spool id. -/
theorem tc_C3_uri_roundtrip (n : Nat) :
    handleBrowserWriteRecords n = [⟨"url".data, "web+spoolman:s-".data ++ numStr n⟩] ∧
    handleBrowserScan (handleBrowserWriteRecords n) = ScanOutcome.navigate n := by
  refine ⟨rfl, ?_⟩
  have hpat : ("web+spoolman:s-".data : List Char) = 'w' :: "eb+spoolman:s-".data := rfl
  have hcap : spoolmanMatch (writeUriText n) = some n := by
    rw [spoolmanMatch, writeUriText, hpat,
      findCapture_exact _ _ _ (numStr_ne_nil n) (numStr_all_digits n), parseVal_numStr]
  simp [handleBrowserScan, handleBrowserWriteRecords, scanRecord, hcap]

/-- C4: the read operation returns the `NfcReadResponse` shape; any device
or decode error yields `success = false` with a populated message, and a
successful decode always carries `tag_data` regardless of the spool match
(the spec's `inventory_match`/`raw_bytes_b64` fields are the code's
`spool_id`/`raw_data_b64`). -/
theorem tc_C4_read_response :
    (∀ (e : DeviceError) (ms : TigerTagData → Option Nat),
      (nfcReadOp (Except.error e) ms).success = false ∧
      (nfcReadOp (Except.error e) ms).message ≠ []) ∧
    (∀ (raw : List Nat) (ms : TigerTagData → Option Nat) (e : DecodeError),
      decode raw = Except.error e →
      (nfcReadOp (Except.ok raw) ms).success = false ∧
      (nfcReadOp (Except.ok raw) ms).message ≠ []) ∧
    (∀ (raw : List Nat) (ms : TigerTagData → Option Nat) (d : TigerTagData),
      decode raw = Except.ok d →
      (nfcReadOp (Except.ok raw) ms).success = true ∧
      (nfcReadOp (Except.ok raw) ms).tag_data = some d) := by
  refine ⟨?_, ?_, ?_⟩
  · intro e ms
    refine ⟨rfl, ?_⟩
    show deviceErrorMessage e ≠ []
    cases e <;> exact List.cons_ne_nil _ _
  · intro raw ms e h
    refine ⟨by simp [nfcReadOp, h], ?_⟩
    have hm : (nfcReadOp (Except.ok raw) ms).message = decodeErrorMessage e := by
      simp [nfcReadOp, h]
    rw [hm]
    cases e <;> exact List.cons_ne_nil _ _
  · intro raw ms d h
    cases hms : ms d <;> simp [nfcReadOp, h, hms]

set_option maxRecDepth 4000 in
theorem tc_C4_read_response_witness :
    ((nfcReadOp (Except.error DeviceError.timeout) (fun _ => none)).success = false ∧
     (nfcReadOp (Except.error DeviceError.timeout) (fun _ => none)).message ≠ []) ∧
    (decode (List.replicate 144 (0 : Nat)) = Except.error DecodeError.badFormat ∧
     (nfcReadOp (Except.ok (List.replicate 144 (0 : Nat))) (fun _ => none)).success = false) ∧
    (decode (encode sampleTag) =
       Except.ok { sampleTag with user_message := sampleTag.user_message.take 28 } ∧
     (nfcReadOp (Except.ok (encode sampleTag)) (fun _ => none)).success = true ∧
     (nfcReadOp (Except.ok (encode sampleTag)) (fun _ => none)).tag_data =
       some { sampleTag with user_message := sampleTag.user_message.take 28 }) := by
  have hbad : decode (List.replicate 144 (0 : Nat)) = Except.error DecodeError.badFormat := by
    rfl
  have hok := decode_encode sampleTag (by decide)
  exact ⟨tc_C4_read_response.1 DeviceError.timeout (fun _ => none),
    ⟨hbad, (tc_C4_read_response.2.1 _ (fun _ => none) _ hbad).1⟩,
    ⟨hok, (tc_C4_read_response.2.2 _ (fun _ => none) _ hok).1,
      (tc_C4_read_response.2.2 _ (fun _ => none) _ hok).2⟩⟩

/-- C5: every remote entry of the merged view carries the identifier
`tigertag_<original-id>`, a remote identifier never collides with a local
identifier even when the raw numeric ids coincide, and local identifiers
enter the merged view unmodified. -/
theorem tc_C5_namespacing :
    (∀ locals remotes f, f ∈ mergedView locals remotes →
      f.source = CatalogSource.remoteSource →
      ∃ e ∈ remotes, f.id = "tigertag_".data ++ numStr e.id_product) ∧
    (∀ (le : LocalCatalogEntry) (re : RemoteCatalogEntry),
      remoteMergedId re ≠ localMergedId le) ∧
    (∀ locals remotes f, f ∈ mergedView locals remotes →
      f.source = CatalogSource.localSource →
      ∃ e ∈ locals, f.id = numStr e.rawId) := by
  refine ⟨?_, ?_, ?_⟩
  · intro locals remotes f hf hsrc
    rw [mergedView, List.mem_append] at hf
    rcases hf with h | h
    · obtain ⟨e, _, rfl⟩ := List.mem_map.1 h
      simp at hsrc
    · obtain ⟨e, he, rfl⟩ := List.mem_map.1 h
      exact ⟨e, he, rfl⟩
  · intro le re heq
    obtain ⟨c, cs, hc, hdig⟩ := numStr_head_digit le.rawId
    rw [remoteMergedId, localMergedId, hc,
      show ("tigertag_".data : List Char) = 't' :: "igertag_".data from rfl,
      List.cons_append] at heq
    have ht : 't' = c := (List.cons.injEq _ _ _ _ ▸ heq).1
    rw [← ht] at hdig
    exact absurd hdig (by decide)
  · intro locals remotes f hf hsrc
    rw [mergedView, List.mem_append] at hf
    rcases hf with h | h
    · obtain ⟨e, he, rfl⟩ := List.mem_map.1 h
      exact ⟨e, he, rfl⟩
    · obtain ⟨e, _, rfl⟩ := List.mem_map.1 h
      simp at hsrc

theorem tc_C5_namespacing_witness :
    remoteMergedId ⟨7⟩ ≠ localMergedId ⟨7⟩ ∧
    ((⟨remoteMergedId ⟨7⟩, CatalogSource.remoteSource⟩ : MergedEntry) ∈
      mergedView [⟨7⟩] [⟨7⟩] ∧
     ∃ e ∈ ([⟨7⟩] : List RemoteCatalogEntry),
       (⟨remoteMergedId ⟨7⟩, CatalogSource.remoteSource⟩ : MergedEntry).id =
         "tigertag_".data ++ numStr e.id_product) := by
  have hmem : (⟨remoteMergedId ⟨7⟩, CatalogSource.remoteSource⟩ : MergedEntry) ∈
      mergedView [⟨7⟩] [⟨7⟩] := by
    rw [mergedView]
    exact List.mem_append_right _ (List.mem_singleton.mpr rfl)
  exact ⟨tc_C5_namespacing.2.1 ⟨7⟩ ⟨7⟩,
    hmem, tc_C5_namespacing.1 [⟨7⟩] [⟨7⟩] _ hmem rfl⟩

/-- C6: on the forward path, when no vendor product-id mapping applies and
two or more inventory records tie for the best tuple score, the matcher
returns `none` — an ordinary "no match", not an error — rather than
choosing one of them. -/
theorem tc_C6_ambiguous_no_match (mapping : List (Nat × Nat)) (d : TigerTagData)
    (inv : List InventoryRecord) (hmap : mapping.lookup d.id_product = none)
    (htie : 2 ≤ (bestCandidates d inv).length) :
    matchSpool mapping d inv = none := by
  rw [matchSpool, hmap]
  cases hbc : bestCandidates d inv with
  | nil => rfl
  | cons r rs =>
    cases rs with
    | nil => rw [hbc] at htie; simp at htie
    | cons r2 rs2 => rfl

theorem tc_C6_ambiguous_no_match_witness :
    ([] : List (Nat × Nat)).lookup sampleTag.id_product = none ∧
    2 ≤ (bestCandidates sampleTag
      [⟨1, 7, 3, 42, 16737792⟩, ⟨2, 7, 3, 42, 16737792⟩]).length ∧
    matchSpool [] sampleTag [⟨1, 7, 3, 42, 16737792⟩, ⟨2, 7, 3, 42, 16737792⟩] = none :=
  ⟨rfl, by decide,
    tc_C6_ambiguous_no_match [] sampleTag
      [⟨1, 7, 3, 42, 16737792⟩, ⟨2, 7, 3, 42, 16737792⟩] rfl (by decide)⟩

/-- C7: the status query is a total function (always succeeds) that leaves
the service state unchanged (side-effect-free) and returns the
`{enabled, status}` shape whose status string is one of the five device
statuses. -/
theorem tc_C7_status_query (s : NfcServiceState) :
    (statusQuery s).2 = s ∧
    (statusQuery s).1.enabled = s.enabled ∧
    ((statusQuery s).1.status = "disabled".data ∨
     (statusQuery s).1.status = "disconnected".data ∨
     (statusQuery s).1.status = "connecting".data ∨
     (statusQuery s).1.status = "connected".data ∨
     (statusQuery s).1.status = "error".data) := by
  refine ⟨rfl, rfl, ?_⟩
  obtain ⟨en, st⟩ := s
  cases st <;> simp [statusQuery, statusText]

/-- C8: the browser scan accepts any `url` or `text` record whose text
contains `/spool/show/<digits>` — an arbitrary prefix before the first such
occurrence (e.g. a full `https://...` URL) and an arbitrary suffix that does
not extend the digit run — navigating to that spool id (the spoolman scheme,
tried first, being absent); and when no record matches either format the
scan reports "no match" without navigating. -/
theorem tc_C8_url_format :
    (∀ (text pre suf : List Char) (n : Nat),
      text = pre ++ ("/spool/show/".data ++ (numStr n ++ suf)) →
      (∀ i, i < pre.length → matchesAt "/spool/show/".data (text.drop i) = false) →
      (∀ x, suf.head? = some x → x.isDigit = false) →
      spoolmanMatch text = none →
      handleBrowserScan [⟨"url".data, text⟩] = ScanOutcome.navigate n) ∧
    (∀ rs : List NdefRecordModel,
      (∀ r ∈ rs, spoolmanMatch r.text = none ∧ urlMatch r.text = none) →
      handleBrowserScan rs = ScanOutcome.noMatch) := by
  constructor
  · intro text pre suf n htext hpos hsuf hsp
    subst htext
    have hcap : urlMatch (pre ++ ("/spool/show/".data ++ (numStr n ++ suf))) = some n := by
      rw [urlMatch, findCapture_append_pos "/spool/show/".data pre
          ("/spool/show/".data ++ (numStr n ++ suf)) hpos,
        show ("/spool/show/".data : List Char) = '/' :: "spool/show/".data from rfl,
        findCapture_at _ _ _ _ (numStr_ne_nil n) (numStr_all_digits n) hsuf,
        parseVal_numStr]
    have hsc : ∀ r : NdefRecordModel, r.recordType = "url".data →
        r.text = pre ++ ("/spool/show/".data ++ (numStr n ++ suf)) → scanRecord r = some n := by
      intro r hty htx
      rw [scanRecord, if_pos (Or.inl hty), htx, hsp]
      exact hcap
    rw [handleBrowserScan,
      hsc ⟨"url".data, pre ++ ("/spool/show/".data ++ (numStr n ++ suf))⟩ rfl rfl]
  · intro rs h
    induction rs with
    | nil => rfl
    | cons r rs ih =>
      have hr := h r (List.mem_cons_self r rs)
      have hsc : scanRecord r = none := by
        by_cases hty : r.recordType = "url".data ∨ r.recordType = "text".data
        · rw [scanRecord, if_pos hty, hr.1]
          exact hr.2
        · rw [scanRecord, if_neg hty]
      rw [handleBrowserScan, hsc]
      exact ih (fun x hx => h x (List.mem_cons_of_mem r hx))

theorem tc_C8_url_format_witness :
    handleBrowserScan [⟨"url".data, "https://example.com/spool/show/42".data⟩] =
      ScanOutcome.navigate 42 ∧
    handleBrowserScan [⟨"text".data, "hello".data⟩] = ScanOutcome.noMatch := by
  have h42 : numStr 42 = ['4', '2'] := by norm_num [numStr, Nat.digits_def']; decide
  refine ⟨tc_C8_url_format.1 "https://example.com/spool/show/42".data
      "https://example.com".data [] 42 ?_ ?_ ?_ ?_,
    tc_C8_url_format.2 [⟨"text".data, "hello".data⟩] (by decide)⟩
  · rw [h42]; decide
  · decide
  · intro x hx; simp at hx
  · decide

/-- C9: whatever is typed into the write modal's user-message field, the
value submitted with the server write request is exactly the first 28
UTF-16 code units of the last typed text, and no request with a message
longer than 28 units can ever be submitted from the form. -/
theorem tc_C9_message_truncation :
    (∀ (evs : List WriteModalEvent) (typed : List Nat) (sid : Nat),
      handleServerWrite sid (runWriteEvents (evs ++ [WriteModalEvent.setMessage typed])) =
        ⟨sid, typed.take 28⟩) ∧
    (∀ (evs : List WriteModalEvent) (sid : Nat),
      (handleServerWrite sid (runWriteEvents evs)).user_message.length ≤ 28) := by
  have step : ∀ (evs : List WriteModalEvent) (s : List Nat), s.length ≤ 28 →
      (evs.foldl applyWriteEvent s).length ≤ 28 := by
    intro evs
    induction evs with
    | nil => intro s hs; exact hs
    | cons e evs ih =>
      intro s hs
      apply ih
      cases e with
      | setMessage typed => simp [applyWriteEvent]
      | cancelModal => simp [applyWriteEvent]
  constructor
  · intro evs typed sid
    rw [handleServerWrite, runWriteEvents, List.foldl_append]
    rfl
  · intro evs sid
    exact step evs [] (by simp)

/-- C10: the scanner entry point renders nothing exactly when server NFC is
unavailable and Web NFC is unsupported; the server mode option is enabled
iff the status query returned `enabled = true` and status `"connected"`,
and every other status string disables it. -/
theorem tc_C10_render_gating :
    (∀ (respData : Option NfcStatusResponse) (w : Bool),
      renderScanner respData w = RenderResult.hidden ↔
        (serverEnabled respData = false ∧ w = false)) ∧
    (∀ respData : Option NfcStatusResponse,
      serverEnabled respData = true ↔
        ∃ r, respData = some r ∧ r.enabled = true ∧ r.status = "connected".data) ∧
    (∀ r : NfcStatusResponse,
      r.status = "disabled".data ∨ r.status = "disconnected".data ∨
      r.status = "connecting".data ∨ r.status = "error".data →
      serverEnabled (some r) = false) := by
  have hfalse : ∀ (r : NfcStatusResponse) (s : List Char), r.status = s →
      decide (s = ("connected".data : List Char)) = false →
      serverEnabled (some r) = false := by
    intro r s hs hd
    simp [serverEnabled, hs, hd]
  refine ⟨?_, ?_, ?_⟩
  · intro respData w
    cases hse : serverEnabled respData <;> cases w <;> simp [renderScanner, hse]
  · intro respData
    cases respData with
    | none => simp [serverEnabled]
    | some r =>
      simp only [serverEnabled, Bool.and_eq_true, decide_eq_true_eq, Option.some.injEq]
      constructor
      · rintro ⟨h1, h2⟩; exact ⟨r, rfl, h1, h2⟩
      · rintro ⟨r2, hr, h1, h2⟩; subst hr; exact ⟨h1, h2⟩
  · rintro r (h | h | h | h)
    · exact hfalse r _ h (by decide)
    · exact hfalse r _ h (by decide)
    · exact hfalse r _ h (by decide)
    · exact hfalse r _ h (by decide)

theorem tc_C10_render_gating_witness :
    serverEnabled (some ⟨true, "error".data⟩) = false ∧
    renderScanner (some ⟨true, "error".data⟩) false = RenderResult.hidden :=
  have hse : serverEnabled (some ⟨true, "error".data⟩) = false :=
    tc_C10_render_gating.2.2 ⟨true, "error".data⟩ (Or.inr (Or.inr (Or.inr rfl)))
  ⟨hse, (tc_C10_render_gating.1 (some ⟨true, "error".data⟩) false).2 ⟨hse, rfl⟩⟩

end Spoolman
